import Mathlib

/-!
Verification of the clawshield policy engine core
(`clawshield/core/condition.py`, `clawshield/core/engine.py`,
`clawshield/core/models.py`) via a shallow embedding.

Mutable Python state is threaded explicitly; functions that can raise are
embedded as `Except String`; Python dicts appearing as fact maps are
association lists with Python dict semantics (insertion order, overwrite
in place, lookup by key).
-/

deriving instance DecidableEq for Except

namespace Clawshield

/-- A YAML/Python value as it occurs in fact values and condition leaves:
`None`, booleans, integers, strings and lists.  (YAML mappings never occur
as leaf `value`s in the shipped policies and are not needed by any claim;
Python tuples/sets — accepted by `isinstance(val, (list, tuple, set))` —
cannot be produced by `yaml.safe_load` from the policy files and are
likewise folded into `list`.) -/
inductive Val where
  | null
  | bool (b : Bool)
  | int (n : Int)
  | str (s : String)
  | list (xs : List Val)

mutual

/-- Structural equality on values, modelling Python `==` on the YAML data
domain.  (Python additionally equates `True == 1` etc.; no policy or claim
relies on numeric/bool coercion, and the YAML documents keep the two types
apart, so equality is modelled structurally.) -/
def Val.beq : Val → Val → Bool
  | .null, .null => true
  | .bool a, .bool b => a == b
  | .int a, .int b => a == b
  | .str a, .str b => a == b
  | .list xs, .list ys => Val.beqList xs ys
  | _, _ => false

/-- Pointwise `Val.beq` on lists. -/
def Val.beqList : List Val → List Val → Bool
  | [], [] => true
  | x :: xs, y :: ys => Val.beq x y && Val.beqList xs ys
  | _, _ => false

end

mutual

theorem Val.beq_iff : ∀ (a b : Val), Val.beq a b = true ↔ a = b
  | .null, b => by cases b <;> simp [Val.beq]
  | .bool x, b => by cases b <;> simp [Val.beq]
  | .int x, b => by cases b <;> simp [Val.beq]
  | .str x, b => by cases b <;> simp [Val.beq]
  | .list xs, b => by
      cases b <;> simp [Val.beq]
      exact Val.beqList_iff xs _

theorem Val.beqList_iff : ∀ (xs ys : List Val), Val.beqList xs ys = true ↔ xs = ys
  | [], ys => by cases ys <;> simp [Val.beqList]
  | x :: xs, ys => by
      cases ys with
      | nil => simp [Val.beqList]
      | cons y ys =>
          simp [Val.beqList, Val.beq_iff x y, Val.beqList_iff xs ys]

end

instance : BEq Val := ⟨Val.beq⟩

instance : LawfulBEq Val where
  eq_of_beq h := (Val.beq_iff _ _).mp h
  rfl := (Val.beq_iff _ _).mpr rfl

instance : DecidableEq Val :=
  fun a b => decidable_of_iff (Val.beq a b = true) (Val.beq_iff a b)

/-- Python `type(v).__name__` for the modelled values. -/
def Val.typeName : Val → String
  | .null => "NoneType"
  | .bool _ => "bool"
  | .int _ => "int"
  | .str _ => "str"
  | .list _ => "list"

/-- `isinstance(v, (list, tuple, set))` over the modelled values. -/
def Val.isListLike : Val → Bool
  | .list _ => true
  | _ => false

/-- A condition-tree document node, exactly as the Python code shape-sniffs
a parsed node: a dict containing key `"all"` (checked first), else one
containing `"any"`, else a leaf dict whose `fact` / `op` / `value` keys may
each be present or absent, or a non-dict value.  A dict whose `"all"`
(resp. `"any"`) key maps to a non-list value is `allBad` (resp. `anyBad`).
All three walks in the source (`_validate_node`, `evaluate_condition`,
`_extract_fact_keys`) test the keys in this same order, so the encoding is
faithful for each of them. -/
inductive Cond where
  | allOf (children : List Cond)
  | allBad (v : Val)
  | anyOf (children : List Cond)
  | anyBad (v : Val)
  | leaf (fact op value : Option Val)
  | notDict (v : Val)

/-- `node["op"] in _VALID_OPS` where `_VALID_OPS = {"eq", "in"}`. -/
def opValid (v : Val) : Bool :=
  v == Val.str ("eq") || v == Val.str ("in")

/-- One leaf field presence check of the loop
`for key in ("fact", "op", "value"): if key not in node: ...`. -/
def missingKeyErr (field : String) (o : Option Val) (path : String) : List String :=
  match o with
  | none => [path ++ ": missing required key \x27" ++ field ++ "\x27"]
  | some _ => []

/-- Best-effort Python `str()` rendering, used only inside error messages. -/
def Val.pyStr : Val → String
  | .null => "None"
  | .bool b => if b then "True" else "False"
  | .int n => toString n
  | .str s => s
  | .list _ => "[...]"

mutual

/-- `_validate_node(node, errors, path)` from `condition.py`, with the
`errors` accumulator made explicit as the returned list (appends happen in
source order, so the returned list is the source's `errors` suffix). -/
def _validate_node : Cond → String → List String
  | .notDict v, path => [path ++ ": expected dict, got " ++ v.typeName]
  | .allBad v, path => [path ++ ".all: expected list, got " ++ v.typeName]
  | .anyBad v, path => [path ++ ".any: expected list, got " ++ v.typeName]
  | .allOf cs, path => _validate_children cs path (path ++ ".all[") 0
  | .anyOf cs, path => _validate_children cs path (path ++ ".any[") 0
  | .leaf fact op value, path =>
      missingKeyErr ("fact") fact path ++
      missingKeyErr ("op") op path ++
      missingKeyErr ("value") value path ++
      (match op with
       | some o =>
         (if opValid o then []
          else [path ++ ": unknown operator \x27" ++ o.pyStr ++ "\x27"]) ++
         -- `val = node.get("value")` conflates an absent "value" key with a
         -- present null one, so `if val is not None and not isinstance(...)`
         -- skips the type check for BOTH.  Faithfully reproduced here.
         (if o == Val.str ("in") then
            match value with
            | some v =>
                if v != Val.null && !v.isListLike then
                  [path ++ ": \x27in\x27 operator requires a list value, got " ++ v.typeName]
                else []
            | none => []
          else [])
       | none => [])

/-- The `for i, child in enumerate(children)` recursion of `_validate_node`,
with `pre` the precomputed `path + ".all["` (or `".any["`) prefix. -/
def _validate_children : List Cond → String → String → Nat → List String
  | [], _, _, _ => []
  | c :: rest, path, pre, i =>
      _validate_node c (pre ++ toString i ++ "]") ++
      _validate_children rest path pre (i + 1)

end

/-- `validate_condition(condition)` from `condition.py`. -/
def validate_condition (condition : Cond) : List String :=
  _validate_node condition ("condition")

/-- Python dict key lookup over an association list whose keys are unique
(all dicts built by the embedded code keep at most one entry per key). -/
def dictLookup (m : List (String × Val)) (k : String) : Option Val :=
  match m with
  | [] => none
  | (k0, v0) :: rest => if k0 = k then some v0 else dictLookup rest k

/-- `facts.get(fact_key)` distinguished from `fact_key not in facts`:
returns `some` exactly when the key is present (the stored value may be
`Val.null`).  A non-string `fact_key` is never present, since fact-map keys
are the `Fact.key` strings. -/
def factsGet (facts : List (String × Val)) (fact_key : Val) : Option Val :=
  match fact_key with
  | .str s => dictLookup facts s
  | _ => none

mutual

/-- `evaluate_condition(condition, facts)` from `condition.py`.  Raised
exceptions (`KeyError` on a missing leaf field, `TypeError` from `in` over
a non-container, `ValueError` for an unknown operator) become `.error`.
For the `all`/`any` branches, Python's lazy `all(...)`/`any(...)` generator
semantics (short-circuit, exceptions propagate in child order) are mirrored
by `_eval_all`/`_eval_any`.  On the shapes the validator rejects outright
(`allBad`, `anyBad`, `notDict`) the Python walk also fails with a
`TypeError` (iterating a non-list, or indexing a non-dict); these are
collapsed to a single error message each. -/
def evaluate_condition : Cond → List (String × Val) → Except String Bool
  | .allOf cs, facts => _eval_all cs facts
  | .anyOf cs, facts => _eval_any cs facts
  | .allBad v, _ => .error ("TypeError: argument of type " ++ v.typeName ++ " is not iterable")
  | .anyBad v, _ => .error ("TypeError: argument of type " ++ v.typeName ++ " is not iterable")
  | .notDict v, _ => .error ("TypeError: " ++ v.typeName ++ " is not a condition mapping")
  | .leaf fact op value, facts =>
      -- field reads, in source order; a missing key raises KeyError
      match fact with
      | none => .error ("KeyError: fact")
      | some fact_key =>
      match op with
      | none => .error ("KeyError: op")
      | some opv =>
      match value with
      | none => .error ("KeyError: value")
      | some expected =>
      -- `actual = facts.get(fact_key)`; explicit contract: missing fact → False
      match factsGet facts fact_key with
      | none => .ok false
      | some actual =>
        if opv == Val.str ("eq") then .ok (actual == expected)
        else if opv == Val.str ("in") then
          -- Python `actual in expected`
          match expected with
          | .list xs => .ok (xs.contains actual)
          | .str s =>
              -- membership in a string is substring search, and requires a
              -- string left operand
              match actual with
              | .str a => .ok (decide (a.data <:+: s.data))
              | _ => .error ("TypeError: a string is required for membership in str")
          | _ => .error ("TypeError: argument of type " ++ expected.typeName ++ " is not iterable")
        else .error ("ValueError: Unknown operator: " ++ opv.pyStr)

/-- `all(evaluate_condition(c, facts) for c in children)`. -/
def _eval_all : List Cond → List (String × Val) → Except String Bool
  | [], _ => .ok true
  | c :: rest, facts =>
      match evaluate_condition c facts with
      | .error e => .error e
      | .ok false => .ok false
      | .ok true => _eval_all rest facts

/-- `any(evaluate_condition(c, facts) for c in children)`. -/
def _eval_any : List Cond → List (String × Val) → Except String Bool
  | [], _ => .ok false
  | c :: rest, facts =>
      match evaluate_condition c facts with
      | .error e => .error e
      | .ok true => .ok true
      | .ok false => _eval_any rest facts

end

/-- The `Fact` dataclass from `models.py`. -/
structure Fact where
  key : String
  value : Val
  source : String
deriving DecidableEq

/-- The `Finding` dataclass from `models.py`.  The field values are whatever
the rule mapping holds at the corresponding keys (strings in the shipped
policies, arbitrary values in general). -/
structure Finding where
  rule_id : Val
  title : Val
  severity : Val
  confidence : Val
  evidence : List Fact
  recommended_actions : List Val
  autofix_available : Bool
deriving DecidableEq

/-- The `EvalResult` dataclass from `engine.py`. -/
structure EvalResult where
  findings : List Finding
  warnings : List String
deriving DecidableEq

/-- One entry of `actions["recommended"]`: a mapping that the engine reads
only at key `"id"` (`a["id"]`), which may be absent. -/
structure ActionDoc where
  id : Option Val
deriving DecidableEq

/-- The `actions` mapping of a rule: the `recommended` and `autofix` lists,
each `none` when the key is absent (read via `actions.get(..., [])`).  The
loader never validates this mapping; the engine reads it only through the
accesses modelled here. -/
structure ActionsDoc where
  recommended : Option (List ActionDoc)
  autofix : Option (List Val)

/-- The fields of a rule mapping that the engine ever reads: the five
required keys plus the optional `actions` mapping; `none` marks an absent
key. -/
structure RuleFields where
  id : Option Val
  title : Option Val
  severity : Option Val
  confidence : Option Val
  condition : Option Cond
  actions : Option ActionsDoc

/-- One element of the `rules` list: a rule mapping or a non-mapping
value. -/
inductive RuleDoc where
  | dict (fields : RuleFields)
  | notDict (v : Val)

/-- The required-keys check `_REQUIRED_RULE_KEYS - rule.keys()`.  Python
renders the resulting set in hash order; the model lists the missing keys
in the fixed order id, title, severity, confidence, condition (no theorem
depends on the rendering of this one message). -/
def missingRuleKeys (f : RuleFields) : List String :=
  (if f.id.isSome then [] else ["id"]) ++
  (if f.title.isSome then [] else ["title"]) ++
  (if f.severity.isSome then [] else ["severity"]) ++
  (if f.confidence.isSome then [] else ["confidence"]) ++
  (if f.condition.isSome then [] else ["condition"])

/-- `rule.get("id", "?")` rendered for error context. -/
def ruleIdStr (f : RuleFields) : String :=
  match f.id with
  | some v => v.pyStr
  | none => "?"

/-- The errors the `_validate_rules` loop appends for the rule at index
`i`: the non-mapping error (with `continue`), else the missing-keys error
(if any) followed by the rule's condition errors, each prefixed with the
rule index and id context. -/
def ruleErrors (i : Nat) : RuleDoc → List String
  | .notDict v => ["rules[" ++ toString i ++ "]: expected dict, got " ++ v.typeName]
  | .dict f =>
      (let missing := missingRuleKeys f
       if missing.isEmpty then []
       else ["rules[" ++ toString i ++ "] (id=" ++ ruleIdStr f ++ "): missing keys: " ++
             String.intercalate (", ") missing]) ++
      (match f.condition with
       | some c =>
           (validate_condition c).map
             (fun err => "rules[" ++ toString i ++ "] (id=" ++ ruleIdStr f ++ "): " ++ err)
       | none => [])

/-- The `for i, rule in enumerate(rules)` loop of `_validate_rules`. -/
def _validate_rules_go (i : Nat) : List RuleDoc → List String
  | [] => []
  | r :: rest => ruleErrors i r ++ _validate_rules_go (i + 1) rest

/-- `_validate_rules(rules)` from `engine.py`. -/
def _validate_rules (rules : List RuleDoc) : List String :=
  _validate_rules_go 0 rules

/-- The value of the top-level `rules` key: a list of rule documents or a
non-list value. -/
inductive RulesField where
  | list (rules : List RuleDoc)
  | notList (v : Val)

/-- A parsed policy document (the result of `yaml.safe_load`): a top-level
mapping carrying an optional `rules` key, or a non-mapping value. -/
inductive PolicyDoc where
  | dict (rules : Option RulesField)
  | notDict (v : Val)

/-- The engine object: its only attribute is the immutable loaded rule
list `self._rules`. -/
structure PolicyEngine where
  _rules : List RuleDoc

/-- `PolicyEngine.__init__` after the `yaml.safe_load` call, with the
parsed document passed in (the file read and the `policy_path` prefix of
the messages are outside the model).  A raised `PolicyLoadError` becomes
`.error`. -/
def PolicyEngine.init (policy : PolicyDoc) : Except String PolicyEngine :=
  match policy with
  | .notDict _ => .error ("expected a YAML mapping at top level")
  | .dict rulesField =>
      match rulesField.getD (RulesField.list []) with
      | .notList _ => .error ("\x27rules\x27 must be a list")
      | .list rules =>
          let errors := _validate_rules rules
          if errors.isEmpty then .ok { _rules := rules }
          else .error ("policy validation failed:\n  " ++ String.intercalate ("\n  ") errors)

/-- `fact_map[f.key] = f.value` on a Python dict: overwrite the existing
entry in place, else append a new one. -/
def dictSet (m : List (String × Val)) (k : String) (v : Val) : List (String × Val) :=
  match m with
  | [] => [(k, v)]
  | (k0, v0) :: rest => if k0 = k then (k0, v) :: rest else (k0, v0) :: dictSet rest k v

/-- `sources.setdefault(f.key, []).append(f.source)`. -/
def addSource (m : List (String × List String)) (k : String) (s : String) :
    List (String × List String) :=
  match m with
  | [] => [(k, [s])]
  | (k0, ss) :: rest => if k0 = k then (k0, ss ++ [s]) :: rest else (k0, ss) :: addSource rest k s

/-- The `for f in facts` loop of `_build_fact_map`, accumulators explicit. -/
def buildGo : List Fact → List (String × Val) × List (String × List String) →
    List (String × Val) × List (String × List String)
  | [], acc => acc
  | f :: rest, (m, srcs) => buildGo rest (dictSet m f.key f.value, addSource srcs f.key f.source)

/-- `_build_fact_map(facts)` from `engine.py`: the fact map and the
collisions dict `{k: v for k, v in sources.items() if len(v) > 1}`. -/
def _build_fact_map (facts : List Fact) :
    List (String × Val) × List (String × List String) :=
  let ms := buildGo facts ([], [])
  (ms.1, ms.2.filter (fun p => decide (1 < p.2.length)))

/-- The duplicate-key warning string built in `PolicyEngine.evaluate`. -/
def warnString (key : String) (sources : List String) : String :=
  "fact \x27" ++ key ++ "\x27 collected " ++ toString sources.length ++
  " times (sources: " ++ String.intercalate (", ") sources ++ "), using last value"

mutual

/-- `_extract_fact_keys(condition)` from `engine.py`.  The Python walk
returns a `set`; the engine only consumes it through membership tests of
`Fact.key` strings (`f.key in fact_keys`), so the set is modelled as the
list of collected keys with `contains` membership.  On shapes the
validator rejects (`allBad`, `anyBad` and non-dict nodes of some runtime
types) the Python walk raises `TypeError`; the engine reaches this walk
only through conditions of loaded — hence validated — rules, where those
shapes cannot occur, and the model collects no keys from them. -/
def _extract_fact_keys : Cond → List Val
  | .allOf cs => _extract_list cs
  | .anyOf cs => _extract_list cs
  | .leaf fact _ _ => (match fact with | some fk => [fk] | none => [])
  | _ => []

/-- The `for c in condition[...]` recursions of `_extract_fact_keys`. -/
def _extract_list : List Cond → List Val
  | [] => []
  | c :: rest => _extract_fact_keys c ++ _extract_list rest

end

/-- A required-key read `rule[key]`; a missing key raises `KeyError`. -/
def getRuleKey (o : Option Val) (key : String) : Except String Val :=
  match o with
  | some v => .ok v
  | none => .error ("KeyError: " ++ key)

/-- `[a["id"] for a in actions.get("recommended", [])]`. -/
def recommendedIds : List ActionDoc → Except String (List Val)
  | [] => .ok []
  | a :: rest =>
      match a.id with
      | none => .error ("KeyError: id")
      | some v =>
          match recommendedIds rest with
          | .ok r => .ok (v :: r)
          | .error e => .error e

/-- The body of the `if evaluate_condition(...)` branch of the rule loop:
build the `Finding` from the rule's fields, the full original fact list
and the referenced-key set. -/
def buildFinding (f : RuleFields) (facts : List Fact) (fact_keys : List Val) :
    Except String Finding := do
  let actions := f.actions.getD { recommended := none, autofix := none }
  let recommended ← recommendedIds (actions.recommended.getD [])
  let has_autofix := decide (0 < (actions.autofix.getD []).length)
  let triggered := facts.filter (fun fa => fact_keys.contains (Val.str fa.key))
  let rid ← getRuleKey f.id ("id")
  let t ← getRuleKey f.title ("title")
  let sev ← getRuleKey f.severity ("severity")
  let conf ← getRuleKey f.confidence ("confidence")
  .ok { rule_id := rid, title := t, severity := sev, confidence := conf,
        evidence := triggered, recommended_actions := recommended,
        autofix_available := has_autofix }

/-- One iteration of the `for rule in self._rules` loop: read the rule's
condition, collect its referenced keys, evaluate the condition, and on
`True` build the `Finding` (`none` when the rule does not fire). -/
def ruleStep (rd : RuleDoc) (fact_map : List (String × Val)) (facts : List Fact) :
    Except String (Option Finding) :=
  match rd with
  | .notDict _ => .error ("TypeError: rule is not a mapping")
  | .dict f =>
      -- `rule["condition"]` raises on the (load-rejected) ruleless shape
      match f.condition with
      | none => .error ("KeyError: condition")
      | some c => do
          let fact_keys := _extract_fact_keys c
          let fired ← evaluate_condition c fact_map
          if fired then do
            let fnd ← buildFinding f facts fact_keys
            .ok (some fnd)
          else .ok none

/-- The full rule loop of `PolicyEngine.evaluate`, findings in rule order. -/
def evalRules : List RuleDoc → List (String × Val) → List Fact →
    Except String (List Finding)
  | [], _, _ => .ok []
  | rd :: rest, fact_map, facts => do
      let fnd? ← ruleStep rd fact_map facts
      let tail ← evalRules rest fact_map facts
      match fnd? with
      | some fnd => .ok (fnd :: tail)
      | none => .ok tail

/-- `PolicyEngine.evaluate(self, facts)` from `engine.py`. -/
def PolicyEngine.evaluate (e : PolicyEngine) (facts : List Fact) :
    Except String EvalResult :=
  let bm := _build_fact_map facts
  let warnings := bm.2.map (fun p => warnString p.1 p.2)
  match evalRules e._rules bm.1 facts with
  | .ok findings => .ok { findings := findings, warnings := warnings }
  | .error msg => .error msg

/-- The `evaluate` method with the object state threaded explicitly: a
Python method may mutate `self`, so the embedding returns the post-call
state alongside the result; `evaluate` only reads `self._rules`, so the
returned state is rebuilt from exactly what was read. -/
def PolicyEngine.evaluateM (e : PolicyEngine) (facts : List Fact) :
    Except String (EvalResult × PolicyEngine) :=
  match e.evaluate facts with
  | .ok r => .ok (r, { _rules := e._rules })
  | .error msg => .error msg

/-! ## Lemmas about the combinator evaluation -/

theorem _eval_all_ok_true (cs : List Cond) (m : List (String × Val)) :
    _eval_all cs m = .ok true ↔ ∀ c ∈ cs, evaluate_condition c m = .ok true := by
  induction cs with
  | nil => simp [_eval_all]
  | cons c rest ih =>
      cases h : evaluate_condition c m with
      | error e =>
          simp only [_eval_all, h, List.mem_cons]
          constructor
          · intro hfalse; cases hfalse
          · intro hall; have hc := hall c (Or.inl rfl); rw [h] at hc; cases hc
      | ok b =>
          cases b with
          | false =>
              simp only [_eval_all, h, List.mem_cons]
              constructor
              · intro hfalse; cases hfalse
              · intro hall; have hc := hall c (Or.inl rfl); rw [h] at hc; cases hc
          | true =>
              simp only [_eval_all, h, List.mem_cons]
              rw [ih]
              constructor
              · intro hrest c0 hc0
                rcases hc0 with rfl | hm
                · exact h
                · exact hrest c0 hm
              · intro hall c0 hm; exact hall c0 (Or.inr hm)

theorem _eval_any_ok_false (cs : List Cond) (m : List (String × Val)) :
    _eval_any cs m = .ok false ↔ ∀ c ∈ cs, evaluate_condition c m = .ok false := by
  induction cs with
  | nil => simp [_eval_any]
  | cons c rest ih =>
      cases h : evaluate_condition c m with
      | error e =>
          simp only [_eval_any, h, List.mem_cons]
          constructor
          · intro hfalse; cases hfalse
          · intro hall; have hc := hall c (Or.inl rfl); rw [h] at hc; cases hc
      | ok b =>
          cases b with
          | true =>
              simp only [_eval_any, h, List.mem_cons]
              constructor
              · intro hfalse; cases hfalse
              · intro hall; have hc := hall c (Or.inl rfl); rw [h] at hc; cases hc
          | false =>
              simp only [_eval_any, h, List.mem_cons]
              rw [ih]
              constructor
              · intro hrest c0 hc0
                rcases hc0 with rfl | hm
                · exact h
                · exact hrest c0 hm
              · intro hall c0 hm; exact hall c0 (Or.inr hm)

theorem _eval_any_ok_true (cs : List Cond) (m : List (String × Val))
    (hok : ∀ c ∈ cs, ∃ b, evaluate_condition c m = .ok b) :
    _eval_any cs m = .ok true ↔ ∃ c ∈ cs, evaluate_condition c m = .ok true := by
  induction cs with
  | nil => simp [_eval_any]
  | cons c rest ih =>
      cases h : evaluate_condition c m with
      | error e =>
          rcases hok c (List.mem_cons_self c rest) with ⟨b, hb⟩
          rw [h] at hb; cases hb
      | ok b =>
          have hok2 : ∀ c0 ∈ rest, ∃ b, evaluate_condition c0 m = .ok b :=
            fun c0 hm => hok c0 (List.mem_cons_of_mem c hm)
          cases b with
          | true =>
              simp only [_eval_any, h, List.mem_cons]
              constructor
              · intro _; exact ⟨c, Or.inl rfl, h⟩
              · intro _; trivial
          | false =>
              simp only [_eval_any, h, List.mem_cons]
              rw [ih hok2]
              constructor
              · intro ⟨c0, hm, hc0⟩; exact ⟨c0, Or.inr hm, hc0⟩
              · intro ⟨c0, hm, hc0⟩
                rcases hm with rfl | hm
                · rw [h] at hc0; cases hc0
                · exact ⟨c0, hm, hc0⟩

/-! ## Characterization of the fact correlator -/

/-- Generic first-match association-list lookup (analysis helper). -/
def lookupKey {α : Type} (m : List (String × α)) (k : String) : Option α :=
  match m with
  | [] => none
  | (k0, v0) :: rest => if k0 = k then some v0 else lookupKey rest k

theorem dictLookup_eq_lookupKey (m : List (String × Val)) (k : String) :
    dictLookup m k = lookupKey m k := by
  induction m with
  | nil => rfl
  | cons p rest ih => cases p; simp [dictLookup, lookupKey, ih]

/-- Reference semantics of the map: the value of the last fact carrying the
key (`none` when no fact does). -/
def lastVal (facts : List Fact) (k : String) : Option Val :=
  match facts with
  | [] => none
  | f :: rest =>
      match lastVal rest k with
      | some v => some v
      | none => if f.key = k then some f.value else none

/-- The sources of all facts carrying the key, in observation order. -/
def sourcesOf (facts : List Fact) (k : String) : List String :=
  (facts.filter (fun f => decide (f.key = k))).map Fact.source

theorem lookupKey_eq_none_of_not_mem {α : Type} (m : List (String × α)) (k : String)
    (h : k ∉ m.map Prod.fst) : lookupKey m k = none := by
  induction m with
  | nil => rfl
  | cons p rest ih =>
      cases p with
      | mk k0 v0 =>
          simp only [List.map_cons, List.mem_cons] at h
          push_neg at h
          simp only [lookupKey]
          rw [if_neg (fun he => h.1 he.symm)]
          exact ih h.2

theorem dictSet_lookup (m : List (String × Val)) (k : String) (v : Val) (q : String) :
    dictLookup (dictSet m k v) q = if k = q then some v else dictLookup m q := by
  induction m with
  | nil =>
      by_cases h : k = q <;> simp [dictSet, dictLookup, h]
  | cons pr rest ih =>
      obtain ⟨k0, v0⟩ := pr
      simp only [dictSet]
      by_cases h0 : k0 = k
      · subst h0
        by_cases hq : k0 = q <;> simp [dictLookup, hq]
      · rw [if_neg h0]
        by_cases hq : k0 = q
        · subst hq
          simp [dictLookup, Ne.symm h0]
        · simp [dictLookup, hq, ih]

theorem addSource_lookup (s : List (String × List String)) (k src : String) (q : String) :
    lookupKey (addSource s k src) q =
      if k = q then some ((lookupKey s k).getD [] ++ [src]) else lookupKey s q := by
  induction s with
  | nil =>
      by_cases h : k = q <;> simp [addSource, lookupKey, h]
  | cons pr rest ih =>
      obtain ⟨k0, ss⟩ := pr
      simp only [addSource]
      by_cases h0 : k0 = k
      · subst h0
        rw [if_pos rfl]
        by_cases hq : k0 = q <;> simp [lookupKey, hq]
      · rw [if_neg h0]
        by_cases hq : k0 = q
        · subst hq
          simp [lookupKey, Ne.symm h0]
        · simp [lookupKey, hq, ih, h0]

theorem buildGo_fst_lookup (facts : List Fact) (m : List (String × Val))
    (s : List (String × List String)) (q : String) :
    dictLookup ((buildGo facts (m, s)).1) q =
      match lastVal facts q with
      | some v => some v
      | none => dictLookup m q := by
  induction facts generalizing m s with
  | nil => simp [buildGo, lastVal]
  | cons f rest ih =>
      simp only [buildGo, lastVal]
      rw [ih]
      cases hl : lastVal rest q with
      | some v => simp
      | none =>
          simp only
          rw [dictSet_lookup]
          by_cases h : f.key = q <;> simp [h]

theorem buildGo_snd_lookup (facts : List Fact) (m : List (String × Val))
    (s : List (String × List String)) (q : String) :
    lookupKey ((buildGo facts (m, s)).2) q =
      match lookupKey s q with
      | some ss => some (ss ++ sourcesOf facts q)
      | none => if (sourcesOf facts q).isEmpty then none else some (sourcesOf facts q) := by
  induction facts generalizing m s with
  | nil =>
      simp only [buildGo, sourcesOf, List.filter_nil, List.map_nil, List.isEmpty_nil]
      cases lookupKey s q <;> simp
  | cons f rest ih =>
      have hsrc : sourcesOf (f :: rest) q =
          if f.key = q then f.source :: sourcesOf rest q else sourcesOf rest q := by
        by_cases h : f.key = q <;> simp [sourcesOf, List.filter_cons, h]
      simp only [buildGo]
      rw [ih, addSource_lookup]
      by_cases h : f.key = q
      · subst h
        rw [if_pos rfl, hsrc, if_pos rfl]
        cases hl : lookupKey s f.key with
        | some ss => simp [hl]
        | none => simp [hl]
      · rw [if_neg h, hsrc, if_neg h]

theorem addSource_keys_mem (s : List (String × List String)) (k src x : String) :
    x ∈ (addSource s k src).map Prod.fst ↔ x ∈ s.map Prod.fst ∨ x = k := by
  induction s with
  | nil => simp [addSource]
  | cons pr rest ih =>
      obtain ⟨k0, ss⟩ := pr
      simp only [addSource]
      by_cases h0 : k0 = k
      · subst h0
        rw [if_pos rfl]
        simp only [List.map_cons, List.mem_cons]
        tauto
      · rw [if_neg h0]
        simp only [List.map_cons, List.mem_cons, ih]
        tauto

theorem addSource_keys_nodup (s : List (String × List String)) (k src : String)
    (h : (s.map Prod.fst).Nodup) : ((addSource s k src).map Prod.fst).Nodup := by
  induction s with
  | nil => simp [addSource]
  | cons pr rest ih =>
      obtain ⟨k0, ss⟩ := pr
      simp only [List.map_cons, List.nodup_cons] at h
      simp only [addSource]
      by_cases h0 : k0 = k
      · subst h0
        rw [if_pos rfl]
        simp only [List.map_cons, List.nodup_cons]
        exact h
      · rw [if_neg h0]
        simp only [List.map_cons, List.nodup_cons]
        refine ⟨?_, ih h.2⟩
        rw [addSource_keys_mem]
        intro hx
        rcases hx with hx | rfl
        · exact h.1 hx
        · exact h0 rfl

theorem buildGo_snd_keys_nodup (facts : List Fact) (m : List (String × Val))
    (s : List (String × List String)) (h : (s.map Prod.fst).Nodup) :
    (((buildGo facts (m, s)).2).map Prod.fst).Nodup := by
  induction facts generalizing m s with
  | nil => simpa [buildGo] using h
  | cons f rest ih =>
      simp only [buildGo]
      exact ih _ _ (addSource_keys_nodup s f.key f.source h)

theorem lookupKey_filter {α : Type} (p : String × α → Bool) (s : List (String × α))
    (h : (s.map Prod.fst).Nodup) (q : String) :
    lookupKey (s.filter p) q =
      match lookupKey s q with
      | some ss => if p (q, ss) then some ss else none
      | none => none := by
  induction s with
  | nil => simp [lookupKey]
  | cons pr rest ih =>
      obtain ⟨k0, ss0⟩ := pr
      simp only [List.map_cons, List.nodup_cons] at h
      simp only [List.filter_cons]
      by_cases hq : k0 = q
      · subst hq
        cases hp : p (k0, ss0) with
        | true => simp [hp, lookupKey]
        | false =>
            have hsub : ((rest.filter p).map Prod.fst).Sublist (rest.map Prod.fst) :=
              (List.filter_sublist rest).map Prod.fst
            have hnone : lookupKey (rest.filter p) k0 = none :=
              lookupKey_eq_none_of_not_mem _ _ (fun hm => h.1 (hsub.subset hm))
            simp [hp, hnone, lookupKey]
      · cases hp : p (k0, ss0) with
        | true => simp [hp, lookupKey, hq, ih h.2]
        | false => simp [hp, lookupKey, hq, ih h.2]

theorem lookupKey_mem {α : Type} (s : List (String × α)) (k : String) (v : α)
    (hl : lookupKey s k = some v) : (k, v) ∈ s := by
  induction s with
  | nil => cases hl
  | cons pr rest ih =>
      obtain ⟨k0, v0⟩ := pr
      simp only [lookupKey] at hl
      by_cases hq : k0 = k
      · rw [if_pos hq] at hl
        injection hl with hv
        subst hq; subst hv
        exact List.mem_cons_self _ _
      · rw [if_neg hq] at hl
        exact List.mem_cons_of_mem _ (ih hl)

theorem lookupKey_some_filter_eq {α : Type} (s : List (String × α)) (k : String) (v : α)
    (hnd : (s.map Prod.fst).Nodup) (hl : lookupKey s k = some v) :
    s.filter (fun p => decide (p.1 = k)) = [(k, v)] := by
  induction s with
  | nil => cases hl
  | cons pr rest ih =>
      obtain ⟨k0, v0⟩ := pr
      simp only [List.map_cons, List.nodup_cons] at hnd
      simp only [lookupKey] at hl
      by_cases hq : k0 = k
      · subst hq
        rw [if_pos rfl] at hl
        injection hl with hv
        subst hv
        have hrest : rest.filter (fun p => decide (p.1 = k0)) = [] := by
          rw [List.filter_eq_nil_iff]
          intro p hp hdec
          exact hnd.1 (by
            have : p.1 = k0 := by simpa using hdec
            rw [← this]
            exact List.mem_map_of_mem Prod.fst hp)
        simp [List.filter_cons, hrest]
      · rw [if_neg hq] at hl
        simp [List.filter_cons, hq, ih hnd.2 hl]

/-- The fact map built by `_build_fact_map` realizes last-write-wins. -/
theorem fact_map_lookup (facts : List Fact) (k : String) :
    dictLookup (_build_fact_map facts).1 k = lastVal facts k := by
  have h := buildGo_fst_lookup facts [] [] k
  simp only [_build_fact_map]
  rw [h]
  cases lastVal facts k <;> simp [dictLookup]

/-- The collisions dict holds exactly the keys carried by two or more fact
records, each mapped to all its sources in observation order. -/
theorem collisions_lookup (facts : List Fact) (k : String) :
    lookupKey (_build_fact_map facts).2 k =
      if 2 ≤ (sourcesOf facts k).length then some (sourcesOf facts k) else none := by
  have hnd : (((buildGo facts ([], [])).2).map Prod.fst).Nodup :=
    buildGo_snd_keys_nodup facts [] [] (by simp)
  simp only [_build_fact_map]
  rw [lookupKey_filter _ _ hnd k, buildGo_snd_lookup facts [] [] k]
  simp only [lookupKey]
  by_cases hemp : (sourcesOf facts k).isEmpty
  · have hnil : sourcesOf facts k = [] := by
      cases hs : sourcesOf facts k
      · rfl
      · rw [hs] at hemp; cases hemp
    simp [hnil]
  · rw [if_neg hemp]
    simp only
    by_cases hlen : 2 ≤ (sourcesOf facts k).length
    · have h1 : (1 : Nat) < (sourcesOf facts k).length := hlen
      simp [h1, hlen]
    · have h1 : ¬(1 : Nat) < (sourcesOf facts k).length := hlen
      simp [h1, hlen]

/-- The collisions dict has no repeated key: one entry per colliding key. -/
theorem collisions_keys_nodup (facts : List Fact) :
    ((_build_fact_map facts).2.map Prod.fst).Nodup := by
  have hnd : (((buildGo facts ([], [])).2).map Prod.fst).Nodup :=
    buildGo_snd_keys_nodup facts [] [] (by simp)
  have hsub : (((_build_fact_map facts).2).map Prod.fst).Sublist
      (((buildGo facts ([], [])).2).map Prod.fst) := by
    simp only [_build_fact_map]
    exact (List.filter_sublist _).map Prod.fst
  exact hnd.sublist hsub

/-- The warnings of a successful `evaluate` call are exactly the rendered
collision entries. -/
theorem evaluate_warnings (facts : List Fact) (e : PolicyEngine) (r : EvalResult)
    (h : e.evaluate facts = .ok r) :
    r.warnings = (_build_fact_map facts).2.map (fun p => warnString p.1 p.2) := by
  simp only [PolicyEngine.evaluate] at h
  cases hev : evalRules e._rules (_build_fact_map facts).1 facts with
  | ok fnds => rw [hev] at h; injection h with h2; rw [← h2]
  | error msg => rw [hev] at h; cases h

/-- `evaluate` succeeds exactly when the rule loop does: the correlation
step and its warnings never make `evaluate` fail. -/
theorem evaluate_ok_iff_rules_ok (facts : List Fact) (e : PolicyEngine) :
    (∃ r, e.evaluate facts = .ok r) ↔
      (∃ fnds, evalRules e._rules (_build_fact_map facts).1 facts = .ok fnds) := by
  cases hev : evalRules e._rules (_build_fact_map facts).1 facts <;>
    simp [PolicyEngine.evaluate, hev]

/-! ## Claims C1, C2, C3, C7 -/

/-- C1: a leaf over an absent key evaluates to false whatever the operator
(and whatever the expected value, null included); a leaf over a key that
is present with value null runs the comparison normally, so an `eq` leaf
with expected value null is true and an `in` leaf tests membership of null
in the expected list. -/
theorem c1_leaf_absent_vs_present_null
    (k : String) (op value : Val) (xs : List Val)
    (m1 m2 : List (String × Val))
    (h1 : dictLookup m1 k = none)
    (h2 : dictLookup m2 k = some Val.null) :
    evaluate_condition (.leaf (some (.str k)) (some op) (some value)) m1 = .ok false ∧
    evaluate_condition (.leaf (some (.str k)) (some (.str ("eq"))) (some Val.null)) m2
      = .ok true ∧
    evaluate_condition (.leaf (some (.str k)) (some (.str ("in"))) (some (.list xs))) m2
      = .ok (xs.contains Val.null) := by
  refine ⟨?_, ?_, ?_⟩ <;> simp [evaluate_condition, factsGet, h1, h2]

/-- Witness for C1: a concrete absent key (empty map, operator `"gt"`),
and a concrete present-null key under `eq null` and `in [null, 1]`. -/
theorem c1_leaf_absent_vs_present_null_witness :
    dictLookup [] "x" = none ∧
    dictLookup [(("x" : String), Val.null)] "x" = some Val.null ∧
    (evaluate_condition (.leaf (some (.str ("x"))) (some (.str ("gt"))) (some (.int 5))) []
        = .ok false ∧
     evaluate_condition (.leaf (some (.str ("x"))) (some (.str ("eq"))) (some Val.null))
        [(("x" : String), Val.null)] = .ok true ∧
     evaluate_condition (.leaf (some (.str ("x"))) (some (.str ("in")))
        (some (.list [Val.null, Val.int 1]))) [(("x" : String), Val.null)]
        = .ok ([Val.null, Val.int 1].contains Val.null)) :=
  ⟨by decide, by decide,
   c1_leaf_absent_vs_present_null ("x") (.str ("gt")) (.int 5) [Val.null, Val.int 1]
     [] [(("x" : String), Val.null)] (by decide) (by decide)⟩

/-- The leaf `{fact: "x", op: "in", value: null}`: its `value` key is
present but holds null, which is not list/set-typed. -/
def inNullLeaf : Cond :=
  .leaf (some (.str ("x"))) (some (.str ("in"))) (some Val.null)

/-- C2 (code bug): contrary to the claim and to §4.1/§3 of the spec,
`_validate_node` records NO type error for an `in` leaf whose `value` key
is present but null — `val = node.get("value")` conflates present-null
with absent, and `if val is not None` then skips the list-type check.  A
present non-null non-list value is rejected as the claim says. -/
theorem c2_in_null_value_passes_validation :
    validate_condition inNullLeaf = [] ∧
    Val.isListLike Val.null = false ∧
    validate_condition
        (.leaf (some (.str ("x"))) (some (.str ("in"))) (some (.str ("not-a-list"))))
      = ["condition: \x27in\x27 operator requires a list value, got str"] := by
  decide

/-- C3 (code bug): the tree `{fact: "x", op: "in", value: null}` passes
validation with no errors, yet evaluating it against a fact map in which
`"x"` is present raises `TypeError` (`5 in None`), contradicting totality
of `evaluate` over validated trees. -/
theorem c3_validated_in_null_leaf_raises :
    validate_condition inNullLeaf = [] ∧
    evaluate_condition inNullLeaf [(("x" : String), Val.int 5)]
      = .error ("TypeError: argument of type NoneType is not iterable") := by
  decide

/-- C7: over children that each evaluate without error, an `all` node is
true iff every child is true (so `all` of `[]` is true), and an `any` node
is true iff some child is true (so `any` of `[]` is false). -/
theorem c7_all_any_combinators (cs : List Cond) (m : List (String × Val))
    (hok : ∀ c ∈ cs, ∃ b, evaluate_condition c m = .ok b) :
    (evaluate_condition (.allOf cs) m = .ok true ↔
       ∀ c ∈ cs, evaluate_condition c m = .ok true) ∧
    (evaluate_condition (.anyOf cs) m = .ok true ↔
       ∃ c ∈ cs, evaluate_condition c m = .ok true) ∧
    evaluate_condition (.allOf []) m = .ok true ∧
    evaluate_condition (.anyOf []) m = .ok false := by
  refine ⟨?_, ?_, by simp [evaluate_condition, _eval_all], by simp [evaluate_condition, _eval_any]⟩
  · simpa [evaluate_condition] using _eval_all_ok_true cs m
  · simpa [evaluate_condition] using _eval_any_ok_true cs m hok

/-- The concrete child list and fact map for the C7 witness. -/
def c7Child : Cond := .leaf (some (.str ("a"))) (some (.str ("eq"))) (some (.int 1))

/-- Witness for C7 at a concrete one-child list and fact map. -/
theorem c7_all_any_combinators_witness :
    (∀ c ∈ [c7Child], ∃ b, evaluate_condition c [(("a" : String), Val.int 1)] = .ok b) ∧
    ((evaluate_condition (.allOf [c7Child]) [(("a" : String), Val.int 1)] = .ok true ↔
        ∀ c ∈ [c7Child], evaluate_condition c [(("a" : String), Val.int 1)] = .ok true) ∧
     (evaluate_condition (.anyOf [c7Child]) [(("a" : String), Val.int 1)] = .ok true ↔
        ∃ c ∈ [c7Child], evaluate_condition c [(("a" : String), Val.int 1)] = .ok true) ∧
     evaluate_condition (.allOf []) [(("a" : String), Val.int 1)] = .ok true ∧
     evaluate_condition (.anyOf []) [(("a" : String), Val.int 1)] = .ok false) := by
  have hok : ∀ c ∈ [c7Child], ∃ b, evaluate_condition c [(("a" : String), Val.int 1)] = .ok b := by
    intro c hc
    rw [List.mem_singleton] at hc
    subst hc
    exact ⟨true, by decide⟩
  exact ⟨hok, c7_all_any_combinators [c7Child] [(("a" : String), Val.int 1)] hok⟩

/-! ## Claims C4 and C10 -/

/-- C4: the correlated map is built in input order with last occurrence
winning; the collisions dict carries exactly one entry per key occurring
in two or more fact records, holding all that key's sources in observation
order, and the warning list renders exactly those entries (key, occurrence
count and source list appear through `warnString`); correlation is total
and its warnings never make `evaluate` fail. -/
theorem c4_fact_correlation (facts : List Fact) :
    (∀ k, dictLookup (_build_fact_map facts).1 k = lastVal facts k) ∧
    (∀ k, lookupKey (_build_fact_map facts).2 k =
        if 2 ≤ (sourcesOf facts k).length then some (sourcesOf facts k) else none) ∧
    ((_build_fact_map facts).2.map Prod.fst).Nodup ∧
    (∀ (e : PolicyEngine) (r : EvalResult), e.evaluate facts = .ok r →
        r.warnings = (_build_fact_map facts).2.map (fun p => warnString p.1 p.2)) ∧
    (∀ e : PolicyEngine, (∃ r, e.evaluate facts = .ok r) ↔
        (∃ fnds, evalRules e._rules (_build_fact_map facts).1 facts = .ok fnds)) :=
  ⟨fact_map_lookup facts, collisions_lookup facts, collisions_keys_nodup facts,
   fun e r h => evaluate_warnings facts e r h,
   fun e => evaluate_ok_iff_rules_ok facts e⟩

/-- The two-source duplicate-key fact list of the spec's correlation
example, used to witness C4. -/
def c4Facts : List Fact :=
  [{ key := "k", value := .str ("v1"), source := "srcA" },
   { key := "k", value := .str ("v2"), source := "srcB" }]

/-- Witness for C4: on the concrete duplicate-key fact list, the map holds
the last value, the collisions dict holds both sources, and a concrete
evaluation (empty rule set) carries exactly the rendered warning. -/
theorem c4_fact_correlation_witness :
    dictLookup (_build_fact_map c4Facts).1 ("k") = lastVal c4Facts ("k") ∧
    lookupKey (_build_fact_map c4Facts).2 ("k") =
      (if 2 ≤ (sourcesOf c4Facts ("k")).length then some (sourcesOf c4Facts ("k")) else none) ∧
    PolicyEngine.evaluate ⟨[]⟩ c4Facts =
      .ok { findings := [],
            warnings := [warnString ("k") [("srcA" : String), "srcB"]] } ∧
    (EvalResult.warnings
        { findings := [],
          warnings := [warnString ("k") [("srcA" : String), "srcB"]] }) =
      (_build_fact_map c4Facts).2.map (fun p => warnString p.1 p.2) :=
  ⟨(c4_fact_correlation c4Facts).1 ("k"),
   (c4_fact_correlation c4Facts).2.1 ("k"),
   by decide,
   (c4_fact_correlation c4Facts).2.2.2.1 ⟨[]⟩
     { findings := [], warnings := [warnString ("k") [("srcA" : String), "srcB"]] }
     (by decide)⟩

/-- C10: the collision warning is keyed on occurrence count, not distinct
sources — when a key occurs in two or more fact records all carrying the
same source, the collisions dict still holds exactly one entry for that
key, whose source list repeats that single source once per record, and the
corresponding warning (naming the total record count) is emitted. -/
theorem c10_same_source_collision (facts : List Fact) (k s0 : String)
    (e : PolicyEngine) (r : EvalResult)
    (hcount : 2 ≤ (facts.filter (fun f => decide (f.key = k))).length)
    (hsrc : ∀ f ∈ facts, f.key = k → f.source = s0)
    (hok : e.evaluate facts = .ok r) :
    lookupKey (_build_fact_map facts).2 k =
      some (List.replicate (facts.filter (fun f => decide (f.key = k))).length s0) ∧
    ((_build_fact_map facts).2.filter (fun p => decide (p.1 = k))).length = 1 ∧
    warnString k (List.replicate (facts.filter (fun f => decide (f.key = k))).length s0)
      ∈ r.warnings := by
  have hrep : sourcesOf facts k =
      List.replicate (facts.filter (fun f => decide (f.key = k))).length s0 := by
    rw [List.eq_replicate_iff]
    constructor
    · simp [sourcesOf]
    · intro b hb
      simp only [sourcesOf, List.mem_map, List.mem_filter] at hb
      obtain ⟨f, ⟨hf, hkey⟩, hbsrc⟩ := hb
      rw [← hbsrc]
      exact hsrc f hf (by simpa using hkey)
  have hlen : 2 ≤ (sourcesOf facts k).length := by
    simp only [sourcesOf, List.length_map]
    exact hcount
  have hlk : lookupKey (_build_fact_map facts).2 k =
      some (List.replicate (facts.filter (fun f => decide (f.key = k))).length s0) := by
    rw [collisions_lookup facts k, if_pos hlen, hrep]
  refine ⟨hlk, ?_, ?_⟩
  · rw [lookupKey_some_filter_eq _ _ _ (collisions_keys_nodup facts) hlk]
    rfl
  · rw [evaluate_warnings facts e r hok]
    exact List.mem_map_of_mem _ (lookupKey_mem _ _ _ hlk)

/-- The three-record single-source fact list witnessing C10. -/
def c10Facts : List Fact :=
  [{ key := "k", value := .str ("v1"), source := "s" },
   { key := "k", value := .str ("v2"), source := "s" },
   { key := "k", value := .str ("v3"), source := "s" }]

/-- Witness for C10 at a concrete fact list: three records of one key, all
from one source, still warn once with count 3 and the source repeated. -/
theorem c10_same_source_collision_witness :
    (2 ≤ (c10Facts.filter (fun f => decide (f.key = ("k" : String)))).length) ∧
    lookupKey (_build_fact_map c10Facts).2 ("k") =
      some (List.replicate
        (c10Facts.filter (fun f => decide (f.key = ("k" : String)))).length ("s")) ∧
    ((_build_fact_map c10Facts).2.filter (fun p => decide (p.1 = ("k" : String)))).length = 1 ∧
    warnString ("k")
        (List.replicate
          (c10Facts.filter (fun f => decide (f.key = ("k" : String)))).length ("s"))
      ∈ EvalResult.warnings
          { findings := [],
            warnings := [warnString ("k") [("s" : String), "s", "s"]] } := by
  refine ⟨by decide, ?_⟩
  exact c10_same_source_collision c10Facts ("k") ("s") ⟨[]⟩
    { findings := [], warnings := [warnString ("k") [("s" : String), "s", "s"]] }
    (by decide)
    (by intro f hf _; fin_cases hf <;> rfl)
    (by decide)

/-! ## Claim C5: atomic, batch-validated loading -/

/-- A structurally valid rule: a mapping with all five required keys whose
condition validates with no errors. -/
def ruleOk : RuleDoc → Prop
  | .notDict _ => False
  | .dict f => f.id.isSome = true ∧ f.title.isSome = true ∧ f.severity.isSome = true ∧
      f.confidence.isSome = true ∧ ∃ c, f.condition = some c ∧ validate_condition c = []

theorem ruleErrors_eq_nil_iff (i : Nat) (rd : RuleDoc) :
    ruleErrors i rd = [] ↔ ruleOk rd := by
  cases rd with
  | notDict v => simp [ruleErrors, ruleOk]
  | dict f =>
      obtain ⟨oid, oti, ose, oco, ocond, oact⟩ := f
      simp only [ruleErrors, ruleOk, missingRuleKeys]
      cases oid <;> cases oti <;> cases ose <;> cases oco <;> cases ocond <;>
        simp [List.append_eq_nil, List.map_eq_nil_iff]

theorem validate_rules_go_eq (rules : List RuleDoc) (i : Nat) :
    _validate_rules_go i rules = ((rules.enumFrom i).map (fun p => ruleErrors p.1 p.2)).flatten := by
  induction rules generalizing i with
  | nil => simp [_validate_rules_go]
  | cons rd rest ih => simp [_validate_rules_go, List.enumFrom, ih]

theorem validate_rules_go_eq_nil_iff (rules : List RuleDoc) (i : Nat) :
    _validate_rules_go i rules = [] ↔ ∀ rd ∈ rules, ruleOk rd := by
  induction rules generalizing i with
  | nil => simp [_validate_rules_go]
  | cons rd rest ih =>
      simp [_validate_rules_go, List.append_eq_nil, ruleErrors_eq_nil_iff, ih]

theorem validate_rules_eq_nil_iff (rules : List RuleDoc) :
    _validate_rules rules = [] ↔ ∀ rd ∈ rules, ruleOk rd :=
  validate_rules_go_eq_nil_iff rules 0

/-- C5: loading is atomic and batch-validated.  With a top-level mapping
whose `rules` value is a list: if every rule is structurally valid the
engine holds exactly those rules in document order; if any rule is invalid
construction fails with the single message aggregating `_validate_rules`,
which concatenates the per-rule error lists over the enumerated rules, and
each invalid rule contributes a nonempty error list; a successful
construction never holds anything but the full validated list.  A
non-mapping document or a non-list `rules` value also fails. -/
theorem c5_atomic_batch_loading (rulesDocs : List RuleDoc) :
    ((∀ rd ∈ rulesDocs, ruleOk rd) →
        PolicyEngine.init (.dict (some (.list rulesDocs))) = .ok ⟨rulesDocs⟩) ∧
    ((∃ rd ∈ rulesDocs, ¬ruleOk rd) →
        PolicyEngine.init (.dict (some (.list rulesDocs))) =
          .error ("policy validation failed:\n  " ++
            String.intercalate ("\n  ") (_validate_rules rulesDocs))) ∧
    (∀ en, PolicyEngine.init (.dict (some (.list rulesDocs))) = .ok en →
        en._rules = rulesDocs ∧ ∀ rd ∈ rulesDocs, ruleOk rd) ∧
    (_validate_rules rulesDocs =
        ((rulesDocs.enum).map (fun p => ruleErrors p.1 p.2)).flatten) ∧
    (∀ (i : Nat) (rd : RuleDoc), ruleErrors i rd = [] ↔ ruleOk rd) ∧
    (∀ v, PolicyEngine.init (.notDict v) = .error ("expected a YAML mapping at top level")) ∧
    (∀ v, PolicyEngine.init (.dict (some (.notList v))) = .error ("\x27rules\x27 must be a list")) := by
  refine ⟨?_, ?_, ?_, validate_rules_go_eq rulesDocs 0, ruleErrors_eq_nil_iff,
          fun v => rfl, fun v => rfl⟩
  · intro hall
    have hnil : _validate_rules rulesDocs = [] := (validate_rules_eq_nil_iff rulesDocs).mpr hall
    simp [PolicyEngine.init, hnil]
  · intro ⟨rd, hm, hbad⟩
    have hne : _validate_rules rulesDocs ≠ [] := by
      intro hnil
      exact hbad ((validate_rules_eq_nil_iff rulesDocs).mp hnil rd hm)
    have hemp : (_validate_rules rulesDocs).isEmpty = false := by
      cases hl : _validate_rules rulesDocs
      · exact absurd hl hne
      · rfl
    simp [PolicyEngine.init, hemp]
  · intro en hok
    by_cases hemp : (_validate_rules rulesDocs).isEmpty
    · have hnil : _validate_rules rulesDocs = [] := by
        cases hl : _validate_rules rulesDocs
        · rfl
        · rw [hl] at hemp; cases hemp
      simp only [PolicyEngine.init, Option.getD, hemp, if_true] at hok
      injection hok with hen
      rw [← hen]
      exact ⟨rfl, (validate_rules_eq_nil_iff rulesDocs).mp hnil⟩
    · have hemp2 : (_validate_rules rulesDocs).isEmpty = false := by
        cases hb : (_validate_rules rulesDocs).isEmpty
        · rfl
        · exact absurd hb hemp
      simp [PolicyEngine.init, hemp2] at hok

/-- The condition of the witness rules for the engine-level claims. -/
def demoCond : Cond :=
  .allOf [
    .leaf (some (.str ("network.bind_address"))) (some (.str ("in")))
          (some (.list [.str ("0.0.0.0"), .str ("::")])),
    .leaf (some (.str ("runtime.auth_enabled"))) (some (.str ("eq"))) (some (.bool false))]

/-- The fields of the NET-001-shaped witness rule. -/
def demoFields : RuleFields :=
  { id := some (.str ("NET-001")),
    title := some (.str ("Public bind without auth")),
    severity := some (.str ("critical")),
    confidence := some (.str ("high")),
    condition := some demoCond,
    actions := some {
      recommended := some [{ id := some (.str ("ACT-ENABLE-AUTH")) }],
      autofix := some [.str ("fix1")] } }

/-- The NET-001-shaped witness rule for the engine-level claims. -/
def demoRule : RuleDoc := .dict demoFields

/-- A structurally invalid witness rule (not a mapping). -/
def c5BadRule : RuleDoc := .notDict (.str ("nope"))

theorem demoRule_ok : ruleOk demoRule :=
  ⟨rfl, rfl, rfl, rfl, demoCond, rfl, by decide⟩

/-- Witness for C5: a concrete one-rule document loads to exactly that
rule; appending a non-mapping rule makes loading fail with the aggregated
message. -/
theorem c5_atomic_batch_loading_witness :
    PolicyEngine.init (.dict (some (.list [demoRule]))) = .ok ⟨[demoRule]⟩ ∧
    PolicyEngine.init (.dict (some (.list [demoRule, c5BadRule]))) =
      .error ("policy validation failed:\n  " ++
        String.intercalate ("\n  ") (_validate_rules [demoRule, c5BadRule])) :=
  ⟨(c5_atomic_batch_loading [demoRule]).1
     (by intro rd hrd; rw [List.mem_singleton] at hrd; subst hrd; exact demoRule_ok),
   (c5_atomic_batch_loading [demoRule, c5BadRule]).2.1
     ⟨c5BadRule, by simp, by simp [ruleOk, c5BadRule]⟩⟩

/-! ## The rule loop as an order-preserving filterMap (claims C6, C8, C9) -/

/-- The outcome of one rule of the loop: the `Finding` it appends, if it
fires and its construction succeeds. -/
def firedFinding (rd : RuleDoc) (fact_map : List (String × Val)) (facts : List Fact) :
    Option Finding :=
  match ruleStep rd fact_map facts with
  | .ok (some fnd) => some fnd
  | _ => none

theorem evalRules_ok_findings (rules : List RuleDoc) (fact_map : List (String × Val))
    (facts : List Fact) (fnds : List Finding)
    (h : evalRules rules fact_map facts = .ok fnds) :
    fnds = rules.filterMap (fun rd => firedFinding rd fact_map facts) := by
  induction rules generalizing fnds with
  | nil =>
      simp only [evalRules] at h
      injection h with h1
      rw [← h1]; rfl
  | cons rd rest ih =>
      simp only [evalRules] at h
      cases hs : ruleStep rd fact_map facts with
      | error e =>
          rw [hs] at h
          simp only [Bind.bind, Except.bind] at h
          cases h
      | ok fo =>
          rw [hs] at h
          simp only [Bind.bind, Except.bind] at h
          cases ht : evalRules rest fact_map facts with
          | error e => rw [ht] at h; cases h
          | ok tail =>
              rw [ht] at h
              cases fo with
              | some fnd =>
                  injection h with h1
                  have hff : firedFinding rd fact_map facts = some fnd := by
                    simp only [firedFinding, hs]
                  rw [← h1, List.filterMap_cons, hff, ih tail ht]
              | none =>
                  injection h with h1
                  have hff : firedFinding rd fact_map facts = none := by
                    simp only [firedFinding, hs]
                  rw [← h1, List.filterMap_cons, hff, ih tail ht]

theorem evalRules_ok_steps (rules : List RuleDoc) (fact_map : List (String × Val))
    (facts : List Fact) (fnds : List Finding)
    (h : evalRules rules fact_map facts = .ok fnds) :
    ∀ rd ∈ rules, ∃ o, ruleStep rd fact_map facts = .ok o := by
  induction rules generalizing fnds with
  | nil => intro rd hm; cases hm
  | cons rd rest ih =>
      simp only [evalRules] at h
      cases hs : ruleStep rd fact_map facts with
      | error e =>
          rw [hs] at h
          simp only [Bind.bind, Except.bind] at h
          cases h
      | ok fo =>
          rw [hs] at h
          simp only [Bind.bind, Except.bind] at h
          cases ht : evalRules rest fact_map facts with
          | error e => rw [ht] at h; cases h
          | ok tail =>
              intro rd0 hm
              rcases List.mem_cons.mp hm with rfl | hm2
              · exact ⟨fo, hs⟩
              · exact ih tail ht rd0 hm2

theorem recommendedIds_ok (l : List ActionDoc) (out : List Val)
    (h : recommendedIds l = .ok out) : out = l.filterMap ActionDoc.id := by
  induction l generalizing out with
  | nil =>
      simp only [recommendedIds] at h
      injection h with h1
      rw [← h1]; rfl
  | cons a rest ih =>
      simp only [recommendedIds] at h
      cases ha : a.id with
      | none => rw [ha] at h; cases h
      | some v =>
          rw [ha] at h
          cases hr : recommendedIds rest with
          | error e => rw [hr] at h; cases h
          | ok rtail =>
              rw [hr] at h
              injection h with h1
              rw [← h1, List.filterMap_cons, ha, ih rtail hr]

/-! ## Claims C8, C9, C6 -/

/-- C8: for a loaded rule set, a successful `evaluate` lists its findings
as the order-preserving `filterMap` of the fired rules over the rule list
in document order (no reordering of any kind), and its warnings are
exactly the rendered correlation collisions, passed through unchanged. -/
theorem c8_findings_in_rule_order (e : PolicyEngine) (facts : List Fact) (r : EvalResult)
    (hloaded : _validate_rules e._rules = [])
    (hok : e.evaluate facts = .ok r) :
    r.findings = e._rules.filterMap
        (fun rd => firedFinding rd (_build_fact_map facts).1 facts) ∧
    r.warnings = (_build_fact_map facts).2.map (fun p => warnString p.1 p.2) := by
  refine ⟨?_, evaluate_warnings facts e r hok⟩
  simp only [PolicyEngine.evaluate] at hok
  cases hev : evalRules e._rules (_build_fact_map facts).1 facts with
  | ok fnds =>
      rw [hev] at hok
      injection hok with h1
      rw [← h1]
      exact evalRules_ok_findings _ _ _ _ hev
  | error msg => rw [hev] at hok; cases hok

/-- The loaded witness engine holding the single NET-001-shaped rule. -/
def demoEngine : PolicyEngine := { _rules := [demoRule] }

/-- The witness fact list that fires the NET-001-shaped rule. -/
def demoFacts : List Fact :=
  [{ key := "network.bind_address", value := .str ("0.0.0.0"), source := "test" },
   { key := "runtime.auth_enabled", value := .bool false, source := "test" }]

/-- The finding the witness engine emits on the witness facts. -/
def demoFinding : Finding :=
  { rule_id := .str ("NET-001"),
    title := .str ("Public bind without auth"),
    severity := .str ("critical"),
    confidence := .str ("high"),
    evidence := demoFacts,
    recommended_actions := [.str ("ACT-ENABLE-AUTH")],
    autofix_available := true }

/-- The witness evaluation result. -/
def demoResult : EvalResult := { findings := [demoFinding], warnings := [] }

/-- Witness for C8 on the concrete one-rule engine and firing facts. -/
theorem c8_findings_in_rule_order_witness :
    _validate_rules demoEngine._rules = [] ∧
    demoEngine.evaluate demoFacts = .ok demoResult ∧
    (demoResult.findings = demoEngine._rules.filterMap
        (fun rd => firedFinding rd (_build_fact_map demoFacts).1 demoFacts) ∧
     demoResult.warnings = (_build_fact_map demoFacts).2.map (fun p => warnString p.1 p.2)) :=
  ⟨by decide, by decide,
   c8_findings_in_rule_order demoEngine demoFacts demoResult (by decide) (by decide)⟩

/-- C9: `evaluate` is deterministic and stateless across calls — two
successive calls on the same engine with the same fact list return equal
ordered findings and equal ordered warnings, and leave the engine's only
state (the loaded rule set) unchanged. -/
theorem c9_two_run_determinism (e : PolicyEngine) (facts : List Fact)
    (r1 r2 : EvalResult) (e1 e2 : PolicyEngine)
    (hloaded : _validate_rules e._rules = [])
    (h1 : e.evaluateM facts = .ok (r1, e1))
    (h2 : e1.evaluateM facts = .ok (r2, e2)) :
    r1.findings = r2.findings ∧ r1.warnings = r2.warnings ∧ e1 = e ∧ e2 = e := by
  simp only [PolicyEngine.evaluateM] at h1 h2
  cases hev : e.evaluate facts with
  | error msg => rw [hev] at h1; cases h1
  | ok r =>
      rw [hev] at h1
      injection h1 with hp
      have hr1 : r1 = r := (congrArg Prod.fst hp).symm
      have he1e : e1 = e := (congrArg Prod.snd hp).symm
      rw [he1e, hev] at h2
      injection h2 with hp2
      have hr2 : r2 = r := (congrArg Prod.fst hp2).symm
      have he2 : e2 = PolicyEngine.mk e._rules := (congrArg Prod.snd hp2).symm
      exact ⟨by rw [hr1, hr2], by rw [hr1, hr2], he1e, he2⟩

/-- Witness for C9: two successive concrete runs of the witness engine. -/
theorem c9_two_run_determinism_witness :
    _validate_rules demoEngine._rules = [] ∧
    demoEngine.evaluateM demoFacts = .ok (demoResult, demoEngine) ∧
    (demoResult.findings = demoResult.findings ∧
     demoResult.warnings = demoResult.warnings ∧
     demoEngine = demoEngine ∧ demoEngine = demoEngine) :=
  ⟨by decide, by rfl,
   c9_two_run_determinism demoEngine demoFacts demoResult demoResult demoEngine demoEngine
     (by decide) (by rfl) (by rfl)⟩

/-- C6: for a loaded rule set, whenever a rule mapping in the set has a
condition that evaluates to true against the correlated map and `evaluate`
succeeds, the emitted finding's evidence is the filter of the ORIGINAL
(non-deduplicated) fact list to the keys referenced anywhere in that
condition tree — original order, duplicates included; its recommended
actions are exactly the declared recommended action ids (empty when none
are declared), and autofix availability is exactly "at least one autofix
action declared". -/
theorem c6_finding_content (e : PolicyEngine) (facts : List Fact) (r : EvalResult)
    (f : RuleFields) (c : Cond)
    (hloaded : _validate_rules e._rules = [])
    (hmem : RuleDoc.dict f ∈ e._rules)
    (hcond : f.condition = some c)
    (hfired : evaluate_condition c (_build_fact_map facts).1 = .ok true)
    (hok : e.evaluate facts = .ok r) :
    ∃ fnd ∈ r.findings,
      fnd.evidence = facts.filter
          (fun fa => (_extract_fact_keys c).contains (Val.str fa.key)) ∧
      fnd.recommended_actions =
        ((f.actions.getD { recommended := none, autofix := none }).recommended.getD
            []).filterMap ActionDoc.id ∧
      fnd.autofix_available =
        decide (0 < ((f.actions.getD { recommended := none, autofix := none }).autofix.getD
            []).length) := by
  have hro : ruleOk (RuleDoc.dict f) := (validate_rules_eq_nil_iff _).mp hloaded _ hmem
  simp only [ruleOk] at hro
  obtain ⟨hid, hti, hse, hco, _, _, _⟩ := hro
  obtain ⟨vid, hvid⟩ := Option.isSome_iff_exists.mp hid
  obtain ⟨vti, hvti⟩ := Option.isSome_iff_exists.mp hti
  obtain ⟨vse, hvse⟩ := Option.isSome_iff_exists.mp hse
  obtain ⟨vco, hvco⟩ := Option.isSome_iff_exists.mp hco
  simp only [PolicyEngine.evaluate] at hok
  cases hev : evalRules e._rules (_build_fact_map facts).1 facts with
  | error msg => rw [hev] at hok; cases hok
  | ok fnds =>
      rw [hev] at hok
      injection hok with h1
      obtain ⟨o, hstep⟩ := evalRules_ok_steps _ _ _ _ hev _ hmem
      simp only [ruleStep, hcond, hfired, Bind.bind, Except.bind] at hstep
      cases hbf : buildFinding f facts (_extract_fact_keys c) with
      | error msg =>
          rw [hbf] at hstep
          simp at hstep
      | ok fnd =>
          have hmemf : fnd ∈ r.findings := by
            rw [← h1]
            show fnd ∈ fnds
            rw [evalRules_ok_findings _ _ _ _ hev]
            refine List.mem_filterMap.mpr ⟨RuleDoc.dict f, hmem, ?_⟩
            simp [firedFinding, ruleStep, hcond, hfired, Bind.bind, Except.bind, hbf]
          -- dissect the successful buildFinding
          have hbf2 := hbf
          simp only [buildFinding, Bind.bind, Except.bind] at hbf2
          cases hrec : recommendedIds
              ((f.actions.getD { recommended := none, autofix := none }).recommended.getD [])
            with
          | error msg => rw [hrec] at hbf2; cases hbf2
          | ok recIds =>
              rw [hrec] at hbf2
              simp only [getRuleKey, hvid, hvti, hvse, hvco] at hbf2
              injection hbf2 with hfnd
              refine ⟨fnd, hmemf, ?_, ?_, ?_⟩
              · rw [← hfnd]
              · rw [← hfnd]
                exact (recommendedIds_ok _ _ hrec)
              · rw [← hfnd]

/-- Witness for C6 on the concrete engine, rule and firing facts. -/
theorem c6_finding_content_witness :
    _validate_rules demoEngine._rules = [] ∧
    RuleDoc.dict demoFields ∈ demoEngine._rules ∧
    demoFields.condition = some demoCond ∧
    evaluate_condition demoCond (_build_fact_map demoFacts).1 = .ok true ∧
    demoEngine.evaluate demoFacts = .ok demoResult ∧
    ∃ fnd ∈ demoResult.findings,
      fnd.evidence = demoFacts.filter
          (fun fa => (_extract_fact_keys demoCond).contains (Val.str fa.key)) ∧
      fnd.recommended_actions =
        ((demoFields.actions.getD { recommended := none, autofix := none }).recommended.getD
            []).filterMap ActionDoc.id ∧
      fnd.autofix_available =
        decide (0 <
          ((demoFields.actions.getD { recommended := none, autofix := none }).autofix.getD
            []).length) :=
  ⟨by decide, List.mem_singleton.mpr rfl, rfl, by decide, by decide,
   c6_finding_content demoEngine demoFacts demoResult demoFields demoCond
     (by decide) (List.mem_singleton.mpr rfl) rfl (by decide) (by decide)⟩

end Clawshield
